import Mathlib

/-!
Shallow embedding of the view-model pipeline of the report dashboard
(`src/unnamed/part_000`, the React grid component) and of the persistence
operations in `src/app/lib/data/data.ts`, together with theorems settling
the specification claims about filtering, sorting, grouping, pagination,
CSV reprocessing and error handling.

Modelling conventions:
- JS `null` becomes `Option.none`; TS union types become inductives.
- JS strings are Lean `String`s; `toLowerCase` is modelled by mapping
  `Char.toLower` over the characters, and `localeCompare` by lexicographic
  comparison of the character sequences (the locale-sensitive collation
  details are outside the embedding; only a total string order is relied
  upon).
- `Array.prototype.sort` is stable (guaranteed since ES2019), so it is
  modelled by `List.mergeSort` with `le a b := comparator a b ≤ 0`; a
  comparator is consumed by `sort` only through the sign of its value.
- JS numbers never overflow on the small integral quantities involved
  here, so `Int`, `Nat` and `Rat` model them exactly.
-/

namespace ReportDashboard

/-- JS `s.toLowerCase()`, character by character. -/
def lowerStr (s : String) : String := ⟨s.data.map Char.toLower⟩

/-- JS `a.includes(b)`: `sub` occurs as a contiguous substring of `s`
(always true for the empty `sub`). -/
def jsIncludes (s sub : String) : Bool :=
  (List.range (s.data.length + 1)).any fun i =>
    (s.data.drop i).take sub.data.length == sub.data

/-- Lexicographic three-way comparison of character sequences; the model
of JS `String.prototype.localeCompare` (sign convention: negative when the
first argument sorts first). -/
def listCmp : List Char → List Char → Int
  | [], [] => 0
  | [], _ :: _ => -1
  | _ :: _, [] => 1
  | a :: as, b :: bs =>
    if a < b then -1 else if b < a then 1 else listCmp as bs

/-- Three-way comparison on strings, the model of `a.localeCompare(b)`. -/
def strCmp (a b : String) : Int := listCmp a.data b.data

/-- Report record, from `export interface Report` in
`src/app/lib/data/data.ts`.  The `data` field (pre-parsed CSV rows) is
never read by the grid component's pipeline and is omitted. -/
structure Report where
  id : String
  name : String
  isActive : Bool
  tags : List String
  date : String
deriving DecidableEq, Repr

/-- The `matchesSearch` conjunct of `filterReports`
(`src/unnamed/part_000` lines 25-26): empty search term, or
case-insensitive substring match on the report name. -/
def matchesSearch (report : Report) (searchTerm : String) : Bool :=
  searchTerm == "" || jsIncludes (lowerStr report.name) (lowerStr searchTerm)

/-- The `matchesTag` conjunct (lines 28-29).  The source condition is
`!tagFilter || report.tags.includes(tagFilter)`; JS `!tagFilter` is true
both for `null` and for the empty string, hence the `t == ""` disjunct. -/
def matchesTag (report : Report) (tagFilter : Option String) : Bool :=
  match tagFilter with
  | none => true
  | some t => t == "" || report.tags.contains t

/-- The `matchesStatus` conjunct (lines 31-32):
`statusFilter === null || report.isActive === statusFilter`. -/
def matchesStatus (report : Report) (statusFilter : Option Bool) : Bool :=
  match statusFilter with
  | none => true
  | some b => report.isActive == b

/-- `filterReports` (`src/unnamed/part_000` lines 23-36). -/
def filterReports (reports : List Report) (searchTerm : String)
    (tagFilter : Option String) (statusFilter : Option Bool) : List Report :=
  reports.filter fun report =>
    matchesSearch report searchTerm && matchesTag report tagFilter &&
      matchesStatus report statusFilter

/-- Retention predicate exactly as claim C5 words it: search term empty or
name contains it case-insensitively, AND tag filter unset or a member of
the record's tags, AND status filter unset or equal to `isActive`. -/
def claimRetains (report : Report) (searchTerm : String)
    (tagFilter : Option String) (statusFilter : Option Bool) : Bool :=
  (searchTerm == "" || jsIncludes (lowerStr report.name) (lowerStr searchTerm)) &&
  (tagFilter == none || tagFilter.any (fun t => report.tags.contains t)) &&
  (statusFilter == none || statusFilter.any (fun b => report.isActive == b))

/-- Retention predicate of the amended claim C5: an empty-string tag
filter also counts as "no tag filter" (JS falsiness of `""`). -/
def amendedRetains (report : Report) (searchTerm : String)
    (tagFilter : Option String) (statusFilter : Option Bool) : Bool :=
  (searchTerm == "" || jsIncludes (lowerStr report.name) (lowerStr searchTerm)) &&
  (tagFilter == none || tagFilter == some "" ||
    tagFilter.any (fun t => report.tags.contains t)) &&
  (statusFilter == none || statusFilter.any (fun b => report.isActive == b))

/-- `type SortField = 'name' | 'date' | 'status' | null`, with the `null`
case represented as `Option.none` at use sites. -/
inductive SortField where
  | name
  | date
  | status
deriving DecidableEq, Repr

/-- `type SortDirection = 'asc' | 'desc' | null`, with `null` as `none`. -/
inductive SortDirection where
  | asc
  | desc
deriving DecidableEq, Repr

/-- `interface SortState` (`src/unnamed/part_000` lines 60-63). -/
structure SortState where
  field : Option SortField
  direction : Option SortDirection
deriving DecidableEq, Repr

/-- JS `Number(boolean)`: `0` for `false`, `1` for `true`. -/
def boolNum (b : Bool) : Int := if b then 1 else 0

/-- The comparator body of `sortReports` (`src/unnamed/part_000` lines
184-201).  `new Date(s).getTime()` is modelled by an arbitrary timestamp
function `dv`; `localeCompare` by `strCmp`. -/
def reportCompare (dv : String → Int) (field : SortField)
    (direction : SortDirection) (a b : Report) : Int :=
  match field with
  | .name =>
    match direction with
    | .asc => strCmp a.name b.name
    | .desc => strCmp b.name a.name
  | .date =>
    match direction with
    | .asc => dv a.date - dv b.date
    | .desc => dv b.date - dv a.date
  | .status =>
    match direction with
    | .asc => boolNum a.isActive - boolNum b.isActive
    | .desc => boolNum b.isActive - boolNum a.isActive

/-- `sortReports` (`src/unnamed/part_000` lines 181-202): identity when
field or direction is `null`, otherwise a stable sort (`[...reports].sort`
with ES2019 stable semantics) by the comparator. -/
def sortReports (dv : String → Int) (reports : List Report)
    (s : SortState) : List Report :=
  match s.field, s.direction with
  | some f, some d =>
    reports.mergeSort fun a b => decide (reportCompare dv f d a b ≤ 0)
  | _, _ => reports

/-- `report.date.split('T')[0]` (`src/unnamed/part_000` line 42): the
prefix of the date string before the first `'T'`. -/
def dateKey (r : Report) : String := ⟨r.date.data.takeWhile (fun c => c ≠ 'T')⟩

/-- One step of the `reduce` accumulator of `groupReportsByDate` (lines
41-48): push `r` onto the group of `key`, appending a new group at the
end when `key` is new (JS object keys preserve insertion order for
non-index keys such as ISO date strings). -/
def insertGrouped (acc : List (String × List Report)) (key : String)
    (r : Report) : List (String × List Report) :=
  match acc with
  | [] => [(key, [r])]
  | (k, rs) :: rest =>
    if k = key then (k, rs ++ [r]) :: rest
    else (k, rs) :: insertGrouped rest key r

/-- The `reduce` of `groupReportsByDate`: association list from date key
to the records carrying it, keys in first-occurrence order. -/
def groupPairs (reports : List Report) : List (String × List Report) :=
  reports.foldl (fun acc r => insertGrouped acc (dateKey r) r) []

/-- The date keys of a record list in first-occurrence order (the
`Object.entries` key order of the `reduce` accumulator). -/
def firstKeys (reports : List Report) : List String :=
  reports.foldl (fun ks r => if dateKey r ∈ ks then ks else ks ++ [dateKey r]) []

/-- The grouping core shared by `src/unnamed/part_000` (lines 41-52) and
`src/unnamed/part_001` (lines 22-34): group by date key, then
`.sort(([dateA], [dateB]) => dateB.localeCompare(dateA))`, i.e. keys
descending. -/
def groupByDateKey (reports : List Report) : List (String × List Report) :=
  (groupPairs reports).mergeSort fun a b => decide (strCmp b.1 a.1 ≤ 0)

/-- `groupReportsByDate` (`src/unnamed/part_000` lines 38-52): filter,
then group by date key. -/
def groupReportsByDate (reports : List Report) (searchTerm : String)
    (tagFilter : Option String) (statusFilter : Option Bool) :
    List (String × List Report) :=
  groupByDateKey (filterReports reports searchTerm tagFilter statusFilter)

/-- `PageSize`: a numeric page size, or `none` for the `'All'` option. -/
abbrev PageSize := Option Nat

/-- `getPaginatedReports` (`src/unnamed/part_000` lines 171-177):
`reports.slice((page-1)*size, (page-1)*size + size)`, or everything for
`'All'`.  Pages are 1-based (`gridCurrentPage` is initialised to 1 and
never leaves `[1, ..]`, so the JS negative-index case of `slice` is
unreachable). -/
def getPaginatedReports (gridPageSize : PageSize) (gridCurrentPage : Nat)
    (reports : List Report) : List Report :=
  match gridPageSize with
  | none => reports
  | some size => (reports.drop ((gridCurrentPage - 1) * size)).take size

/-- CSV table as produced by `parseCSV`. -/
structure CsvData where
  headers : List String
  rows : List (List String)
deriving DecidableEq, Repr

/-- `getPaginatedData` (`src/unnamed/part_000` lines 163-169), the CSV
modal twin of `getPaginatedReports`. -/
def getPaginatedData (pageSize : PageSize) (currentPage : Nat)
    (data : CsvData) : List (List String) :=
  match pageSize with
  | none => data.rows
  | some size => (data.rows.drop ((currentPage - 1) * size)).take size

/-- `Math.ceil(count / size)` for a positive integral `size`, the page
count expression of the pagination controls (lines 671, 675, 681-682 and
826, 830, 836-837).  Note there is no clamping to a minimum of 1. -/
def jsCeilDiv (count size : Nat) : Nat := (count + size - 1) / size

/-- `Math.ceil(reports.length / (typeof gridPageSize === 'number' ?
gridPageSize : 1))`, the total-page count shown by the grid controls. -/
def gridTotalPages (reports : List Report) (gridPageSize : PageSize) : Nat :=
  jsCeilDiv reports.length (gridPageSize.getD 1)

/-- Page count as claim C2 words it: `ceil(count / p)` clamped to a
minimum of 1 even for an empty sequence. -/
def specTotalPages (count size : Nat) : Nat := max (jsCeilDiv count size) 1

/-- Characters trimmed the way JS `String.prototype.trim` does (over the
whitespace characters occurring in this data). -/
def trimChars (cs : List Char) : List Char :=
  ((cs.dropWhile Char.isWhitespace).reverse.dropWhile Char.isWhitespace).reverse

/-- Value of a digit sequence read in base 10. -/
def decDigitsVal (cs : List Char) : Nat :=
  cs.foldl (fun n c => 10 * n + (c.toNat - '0'.toNat)) 0

/-- Unsigned decimal literal: digits with an optional fractional part,
such as `42`, `3.5`, `.5`, `5.`; anything else is rejected. -/
def parseUnsigned (cs : List Char) : Option Rat :=
  let ip := cs.takeWhile Char.isDigit
  let rest := cs.dropWhile Char.isDigit
  match rest with
  | [] => if ip.isEmpty then none else some ((decDigitsVal ip : Nat) : Rat)
  | '.' :: fp =>
    if fp.all Char.isDigit && !(ip.isEmpty && fp.isEmpty) then
      some ((decDigitsVal ip : Nat) + (decDigitsVal fp : Nat) / ((10 : Rat) ^ fp.length))
    else none
  | _ => none

/-- JS `Number(string)` on the decimal fragment relevant to CSV cells:
whitespace is trimmed, the empty (or all-whitespace) string converts to
`0`, an optionally signed decimal literal converts to its value, and
anything else is `NaN`, modelled as `none`.  (Hexadecimal, exponent and
`Infinity` literals are outside the modelled fragment.) -/
def jsNumber (s : String) : Option Rat :=
  let t := trimChars s.data
  if t.isEmpty then some 0
  else
    match t with
    | '-' :: rest => (parseUnsigned rest).map (fun q => -q)
    | '+' :: rest => parseUnsigned rest
    | cs => parseUnsigned cs

/-- `row[csvSortField]`.  `parseCSV` guarantees every retained row has
exactly `headers.length` cells and the sort column is a header index, so
the access is always in bounds; `getD` supplies a default only for the
unreachable out-of-range case. -/
def cellAt (row : List String) (i : Nat) : String := row.getD i ""

/-- The row comparator of `getProcessedCsvData` (`src/unnamed/part_000`
lines 273-289): numeric comparison when both cells convert to numbers,
string comparison otherwise, decided per compared pair. -/
def csvCompare (d : SortDirection) (i : Nat) (a b : List String) : Rat :=
  let valueA := cellAt a i
  let valueB := cellAt b i
  match jsNumber valueA, jsNumber valueB with
  | some numA, some numB =>
    match d with
    | .asc => numA - numB
    | .desc => numB - numA
  | _, _ =>
    match d with
    | .asc => ((strCmp valueA valueB : Int) : Rat)
    | .desc => ((strCmp valueB valueA : Int) : Rat)

/-- The filtering predicate of `getProcessedCsvData` (lines 264-268):
some cell contains the filter text case-insensitively. -/
def rowMatchesFilter (csvFilter : String) (row : List String) : Bool :=
  row.any fun cell => jsIncludes (lowerStr cell) (lowerStr csvFilter)

/-- CSV sort state: `csvSortField : number | null` and
`csvSortDirection : 'asc' | 'desc' | null`. -/
structure CsvSortState where
  field : Option Nat
  direction : Option SortDirection
deriving DecidableEq, Repr

/-- `getProcessedCsvData` (`src/unnamed/part_000` lines 259-293): filter
the rows when `csvFilter` is truthy (non-empty), then sort them when a
sort column and direction are set. -/
def getProcessedCsvData (csvFilter : String) (s : CsvSortState)
    (data : CsvData) : CsvData :=
  let processedRows := data.rows
  let processedRows :=
    if csvFilter == "" then processedRows
    else processedRows.filter (rowMatchesFilter csvFilter)
  let processedRows :=
    match s.field, s.direction with
    | some i, some d =>
      processedRows.mergeSort fun a b => decide (csvCompare d i a b ≤ 0)
    | _, _ => processedRows
  { headers := data.headers, rows := processedRows }

/-- `handleSort` (`src/unnamed/part_000` lines 217-229): clicking a field
cycles asc → desc → null on the already-active field and starts at asc on
a new field. -/
def handleSort (prev : SortState) (field : SortField) : SortState :=
  { field := some field
    direction :=
      if prev.field = some field then
        if prev.direction = some .asc then some .desc
        else if prev.direction = some .desc then none
        else some .asc
      else some .asc }

/-- The CSV column header `onClick` handler (`src/unnamed/part_000` lines
767-779).  On the active column the direction cycles asc → desc → null,
and — reading the stale render-time value of `csvSortDirection` — the
column itself is cleared exactly on the desc → null step; a different
column starts at asc. -/
def csvHeaderClick (prev : CsvSortState) (index : Nat) : CsvSortState :=
  if prev.field = some index then
    { field := if prev.direction = some .desc then none else prev.field
      direction :=
        if prev.direction = some .asc then some .desc
        else if prev.direction = some .desc then none
        else some .asc }
  else
    { field := some index, direction := some .asc }

/-- The three-state sort machine as the spec describes it (shared by the
grid and the CSV columns): neutral, or ascending/descending on a single
active key. -/
inductive SpecSort (κ : Type) where
  | neutral
  | asc (k : κ)
  | desc (k : κ)
deriving DecidableEq, Repr

/-- Transition of the spec machine on a click of key `k`. -/
def specStep {κ : Type} [DecidableEq κ] (s : SpecSort κ) (k : κ) : SpecSort κ :=
  match s with
  | .neutral => .asc k
  | .asc j => if j = k then .desc k else .asc k
  | .desc j => if j = k then .neutral else .asc k

/-- Abstraction of the grid's `SortState` to the spec machine: a state
sorts by `f` iff both a field and a direction are set. -/
def absGrid (s : SortState) : SpecSort SortField :=
  match s.field, s.direction with
  | some f, some .asc => .asc f
  | some f, some .desc => .desc f
  | _, _ => .neutral

/-- Abstraction of the CSV sort state to the spec machine. -/
def absCsv (s : CsvSortState) : SpecSort Nat :=
  match s.field, s.direction with
  | some i, some .asc => .asc i
  | some i, some .desc => .desc i
  | _, _ => .neutral

/-- Control state of the grid view (UI-local state of the component that
feeds the pipeline). -/
structure Controls where
  searchTerm : String
  tagFilter : Option String
  statusFilter : Option Bool
  sortState : SortState
  groupByDate : Bool
  gridPageSize : PageSize
  gridCurrentPage : Nat
deriving Repr

/-- `processedReports` (`src/unnamed/part_000` lines 210-215): filter,
then sort. -/
def processedReports (dv : String → Int) (reports : List Report)
    (searchTerm : String) (tagFilter : Option String)
    (statusFilter : Option Bool) (sortState : SortState) : List Report :=
  sortReports dv (filterReports reports searchTerm tagFilter statusFilter) sortState

/-- The full view pipeline: the grouped view renders
`groupReportsByDate` directly (no sorting or pagination), the flat view
renders `getPaginatedReports(processedReports)` (lines 364-366 and
570). -/
def computeView (dv : String → Int) (reports : List Report) (c : Controls) :
    List Report ⊕ List (String × List Report) :=
  if c.groupByDate then
    Sum.inr (groupReportsByDate reports c.searchTerm c.tagFilter c.statusFilter)
  else
    Sum.inl (getPaginatedReports c.gridPageSize c.gridCurrentPage
      (processedReports dv reports c.searchTerm c.tagFilter c.statusFilter c.sortState))

/-- Neutral controls: empty search, no tag/status filter, no sort,
grouping off, unbounded page size, page 1. -/
def neutralControls : Controls :=
  { searchTerm := ""
    tagFilter := none
    statusFilter := none
    sortState := { field := none, direction := none }
    groupByDate := false
    gridPageSize := none
    gridCurrentPage := 1 }

/-- The component state that the grid's pagination and filter handlers
read and write. -/
structure GridState where
  reports : List Report
  searchTerm : String
  tagFilter : Option String
  statusFilter : Option Bool
  sortState : SortState
  gridPageSize : PageSize
  gridCurrentPage : Nat
deriving DecidableEq, Repr

/-- User actions on the grid's filter and pagination controls. -/
inductive GridAction where
  | setSearch (s : String)
  | setTagFilter (t : Option String)
  | setStatusFilter (b : Option Bool)
  | setPageSize (p : PageSize)
  | clickSort (f : SortField)
  | pageFirst
  | pagePrev
  | pageNext
  | pageLast
deriving Repr

/-- The pagination block is rendered only when `gridPageSize !== 'All' &&
reports.length > gridPageSize` (line 654); otherwise its buttons cannot
be clicked. -/
def gridControlsShown (st : GridState) : Bool :=
  match st.gridPageSize with
  | none => false
  | some size => st.reports.length > size

/-- The raw-count page total used by the grid buttons (line 671): note it
divides `reports.length`, not the filtered `processedReports` length. -/
def rawTotalPages (st : GridState) : Nat :=
  jsCeilDiv st.reports.length (st.gridPageSize.getD 1)

/-- One step of the grid component: each filter `onChange` only writes
its own state (lines 335, 343, 354 — no page reset); the page-size
select resets the page to 1 (lines 491-493); the pagination buttons
(lines 656-686) act only when rendered and not `disabled`. -/
def gridStep (st : GridState) : GridAction → GridState
  | .setSearch s => { st with searchTerm := s }
  | .setTagFilter t => { st with tagFilter := t }
  | .setStatusFilter b => { st with statusFilter := b }
  | .setPageSize p => { st with gridPageSize := p, gridCurrentPage := 1 }
  | .clickSort f => { st with sortState := handleSort st.sortState f }
  | .pageFirst =>
    if gridControlsShown st && !(st.gridCurrentPage == 1) then
      { st with gridCurrentPage := 1 }
    else st
  | .pagePrev =>
    if gridControlsShown st && !(st.gridCurrentPage == 1) then
      { st with gridCurrentPage := max (st.gridCurrentPage - 1) 1 }
    else st
  | .pageNext =>
    if gridControlsShown st && !(st.gridCurrentPage == rawTotalPages st) then
      { st with gridCurrentPage := st.gridCurrentPage + 1 }
    else st
  | .pageLast =>
    if gridControlsShown st && !(st.gridCurrentPage == rawTotalPages st) then
      { st with gridCurrentPage := rawTotalPages st }
    else st

/-- `processedReports` of a grid state. -/
def gridProcessed (dv : String → Int) (st : GridState) : List Report :=
  processedReports dv st.reports st.searchTerm st.tagFilter st.statusFilter st.sortState

/-- The rows the flat grid view actually renders (line 570):
`getPaginatedReports(processedReports)`. -/
def displayedReports (dv : String → Int) (st : GridState) : List Report :=
  getPaginatedReports st.gridPageSize st.gridCurrentPage (gridProcessed dv st)

/-- The page total computed over the filtered and sorted result sequence,
as claim C1 demands it. -/
def filteredTotalPages (dv : String → Int) (st : GridState) : Nat :=
  jsCeilDiv (gridProcessed dv st).length (st.gridPageSize.getD 1)

/-- A report entry of `structure.json` as `toggleReportStatus` sees it. -/
structure StoredReport where
  id : String
  name : String
  isActive : Bool
  tags : List String
  date : String
deriving DecidableEq, Repr

/-- `interface Folder` of `src/app/lib/data/data.ts`. -/
structure Folder where
  id : String
  name : String
  reports : List StoredReport
deriving DecidableEq, Repr

/-- The parsed contents of `structure.json`. -/
structure StructureFile where
  folders : List Folder
deriving DecidableEq, Repr

/-- `toggleReportStatus` (`src/app/lib/data/data.ts` lines 63-87): read
`structure.json`, set `isActive` of the matching report in every folder,
write the file back, return `true`; any thrown error (modelled by
`writeFails`) is caught inside the function, logged, and `false` is
returned with the file left unchanged.  The function never throws. -/
def toggleReportStatus (writeFails : Bool) (persisted : StructureFile)
    (reportId : String) (status : Bool) : Bool × StructureFile :=
  let updated : StructureFile :=
    { folders := persisted.folders.map fun folder =>
        { folder with
          reports := folder.reports.map fun report =>
            if report.id == reportId then { report with isActive := status }
            else report } }
  if writeFails then (false, persisted) else (true, updated)

/-- `handleToggleActive` (`src/unnamed/part_000` lines 110-123):
`await toggleReportStatus(...)` then flip the record in `reports`.  The
`catch` branch (which leaves `reports` unchanged) runs only when the
awaited call itself rejects (`callRejects`), e.g. on a transport error;
the returned boolean is never inspected. -/
def handleToggleActive (callRejects : Bool) (reports : List Report)
    (reportId : String) : List Report :=
  if callRejects then reports
  else
    reports.map fun report =>
      if report.id == reportId then { report with isActive := !report.isActive }
      else report

/-- End-to-end toggle flow for a persistence-layer failure: since
`toggleReportStatus` catches internally and resolves with `false`, the
component's optimistic update always runs; the pair is (state of
`structure.json`, in-memory `reports` afterwards). -/
def toggleFlow (writeFails : Bool) (persisted : StructureFile)
    (reports : List Report) (reportId : String) (currentStatus : Bool) :
    StructureFile × List Report :=
  let result := toggleReportStatus writeFails persisted reportId (!currentStatus)
  (result.2, handleToggleActive false reports reportId)

/-- Sample record used in concrete counterexamples and witnesses. -/
def reportA : Report :=
  { id := "r1", name := "Report alpha", isActive := true, tags := []
    date := "2024-01-02T10:00:00" }

/-- Second sample record, different date key. -/
def reportB : Report :=
  { id := "r2", name := "Report beta", isActive := false, tags := ["tagx"]
    date := "2024-01-01T09:00:00" }

/-- Six sample reports; exactly the first one matches the search "alpha". -/
def sampleReports : List Report :=
  [reportA,
   { id := "r2", name := "Report beta1", isActive := true, tags := [], date := "2024-01-02T11:00:00" },
   { id := "r3", name := "Report beta2", isActive := true, tags := [], date := "2024-01-02T12:00:00" },
   { id := "r4", name := "Report beta3", isActive := true, tags := [], date := "2024-01-02T13:00:00" },
   { id := "r5", name := "Report beta4", isActive := true, tags := [], date := "2024-01-02T14:00:00" },
   { id := "r6", name := "Report beta5", isActive := true, tags := [], date := "2024-01-02T15:00:00" }]

/-- Timestamp function used whenever a concrete `dv` is needed. -/
def dv0 : String → Int := fun _ => 0

/-- Initial grid state for the claim C1 scenario: six reports, page size
5, page 1, all filters neutral. -/
def gridState0 : GridState :=
  { reports := sampleReports
    searchTerm := ""
    tagFilter := none
    statusFilter := none
    sortState := { field := none, direction := none }
    gridPageSize := some 5
    gridCurrentPage := 1 }

/-- Sample persisted structure for the claim C4 scenario. -/
def persisted0 : StructureFile :=
  { folders := [{ id := "f1", name := "Folder 1"
                  reports := [{ id := "r1", name := "alpha", isActive := true
                                tags := [], date := "2024-01-02T10:00:00" }] }] }

/-- Sample CSV table from the spec's worked example. -/
def csvSample : CsvData :=
  { headers := ["col1", "col2"]
    rows := [["abc", "1"], ["xyz", "2"], ["cab", "3"]] }


/-! ### Theorems -/

/-- C3: with neutral controls (empty search, no tag or status filter, no
sort, grouping off, unbounded page size, page 1) the full view pipeline
returns exactly the input record set, in its original order. -/
theorem computeView_neutral (dv : String → Int) (R : List Report) :
    computeView dv R neutralControls = Sum.inl R := by
  simp [computeView, neutralControls, processedReports, getPaginatedReports,
    filterReports, sortReports, matchesSearch, matchesTag, matchesStatus]

/-- C5 counterexample: with the empty-string tag filter (a value of the
TS type `string | null` that is neither `null` nor a member of the
record's tags) `filterReports` retains a tagless record, while the
claim's retention predicate rejects it. -/
theorem filterReports_cexC5 :
    filterReports [reportA] "" (some "") none = [reportA] ∧
    claimRetains reportA "" (some "") none = false ∧
    filterReports [reportA] "" (some "") none ≠
      List.filter (fun r => claimRetains r "" (some "") none) [reportA] := by
  decide

/-- C5 amended: `filterReports` retains a record iff the search term is
empty or the name contains it case-insensitively, the tag filter is unset
OR EMPTY or a member of the record's tags, and the status filter is unset
or equals `isActive`; the output is a sublist of the input (order
preserved, no mutation). -/
theorem filterReports_spec (l : List Report) (s : String)
    (t : Option String) (st : Option Bool) :
    filterReports l s t st = l.filter (fun r => amendedRetains r s t st) ∧
    List.Sublist (filterReports l s t st) l := by
  constructor
  · refine List.filter_congr fun r _ => ?_
    cases t <;> cases st <;>
      simp [matchesSearch, matchesTag, matchesStatus, amendedRetains,
        Bool.or_assoc, Bool.and_assoc]
  · exact List.filter_sublist l

/-- C2 counterexample: for an empty record set and page size 10 the
code's page count `Math.ceil(0/10)` is `0`, not the claimed minimum of
`1`. -/
theorem gridTotalPages_cexC2 :
    gridTotalPages [] (some 10) = 0 ∧
    specTotalPages ([] : List Report).length 10 = 1 ∧
    gridTotalPages [] (some 10) ≠ specTotalPages ([] : List Report).length 10 := by
  decide

/-- C2 amended: the visible slice is the elements from offset
`(page−1)·size` up to `page·size`, clipped to the sequence bounds, and
the `'All'` page size returns the whole sequence; the page count is
exactly `ceil(count/size)` with NO minimum-1 clamp (an empty sequence
yields 0 pages; for a non-empty sequence the count is at least 1, and the
zero-page state is never rendered because the controls only appear when
`count > size`). -/
theorem paginate_spec (size page : Nat) (l : List Report)
    (hsize : 0 < size) (hpage : 1 ≤ page) :
    (∀ k : Nat, (getPaginatedReports (some size) page l)[k]? =
      if k < size then l[(page - 1) * size + k]? else none) ∧
    getPaginatedReports none page l = l ∧
    gridTotalPages l (some size) = (l.length + size - 1) / size ∧
    (l.length = 0 → gridTotalPages l (some size) = 0) ∧
    (0 < l.length →
      1 ≤ gridTotalPages l (some size) ∧
      l.length ≤ gridTotalPages l (some size) * size ∧
      (gridTotalPages l (some size) - 1) * size < l.length) := by
  have hdiv : ∀ c : Nat, gridTotalPages l (some size) = (l.length + size - 1) / size := by
    intro _; rfl
  refine ⟨?_, rfl, hdiv 0, ?_, ?_⟩
  · intro k
    by_cases hk : k < size
    · rw [if_pos hk]
      simp [getPaginatedReports, List.getElem?_take, hk, List.getElem?_drop]
    · rw [if_neg hk]
      apply List.getElem?_eq_none
      calc (List.take size (List.drop ((page - 1) * size) l)).length
          ≤ size := by simp
        _ ≤ k := Nat.le_of_not_lt hk
  · intro h0
    simp only [gridTotalPages, jsCeilDiv, h0, Option.getD_some, Nat.zero_add]
    exact Nat.div_eq_of_lt (by omega)
  · intro hpos
    set n := gridTotalPages l (some size) with hn
    have hn' : n = (l.length + size - 1) / size := hdiv 0
    have h1 : 1 ≤ n := by
      rw [hn', Nat.le_div_iff_mul_le hsize]
      omega
    have h2 : l.length ≤ n * size := by
      by_contra hcon
      push_neg at hcon
      have : n + 1 ≤ (l.length + size - 1) / size := by
        rw [Nat.le_div_iff_mul_le hsize]
        have hexp : (n + 1) * size = n * size + size := by ring
        omega
      omega
    have h3 : (n - 1) * size < l.length := by
      by_contra hcon
      push_neg at hcon
      obtain ⟨m, hm⟩ : ∃ m, n = m + 1 := ⟨n - 1, by omega⟩
      have hup : (l.length + size - 1) / size < m + 1 := by
        rw [Nat.div_lt_iff_lt_mul hsize]
        have hexp : (m + 1) * size = m * size + size := by ring
        rw [hm] at hcon
        simp only [Nat.add_sub_cancel] at hcon
        omega
      omega
    exact ⟨h1, h2, h3⟩

/-- C2 witness: page 2 at size 2 over the six sample reports starts at
element 2, and the `'All'` page size returns everything. -/
theorem paginate_spec_witness :
    (getPaginatedReports (some 2) 2 sampleReports)[0]? = sampleReports[2]? ∧
    getPaginatedReports none 2 sampleReports = sampleReports := by
  have h := paginate_spec 2 2 sampleReports (by decide) (by decide)
  refine ⟨?_, h.2.1⟩
  have := h.1 0
  simpa using this

/-- C4 counterexample: when the `structure.json` write fails,
`toggleReportStatus` swallows the error and resolves with `false`, the
file keeps its old contents, and the component still applies the
optimistic in-memory toggle — the collection does NOT keep the pre-toggle
value. -/
theorem toggleFlow_cexC4 :
    (toggleReportStatus true persisted0 "r1" false).1 = false ∧
    (toggleFlow true persisted0 [reportA] "r1" true).1 = persisted0 ∧
    (toggleFlow true persisted0 [reportA] "r1" true).2 ≠ [reportA] ∧
    (toggleFlow true persisted0 [reportA] "r1" true).2 =
      [{ reportA with isActive := false }] := by
  decide

/-- C4 amended: a persistence write failure is caught INSIDE
`toggleReportStatus` (not at the component call site), which logs it,
leaves the persisted file unchanged and returns `false`; the component
never inspects that result, so the in-memory toggle is applied regardless
(flipping exactly the matching record and no other); only a rejection of
the call itself makes the component's `catch` leave the in-memory
collection unchanged. -/
theorem toggleFlow_spec (writeFails : Bool) (persisted : StructureFile)
    (reports : List Report) (reportId : String) (currentStatus : Bool) :
    toggleReportStatus true persisted reportId (!currentStatus) = (false, persisted) ∧
    handleToggleActive true reports reportId = reports ∧
    (∀ r ∈ reports, r.id ≠ reportId →
      r ∈ (toggleFlow writeFails persisted reports reportId currentStatus).2) ∧
    (∀ r ∈ reports, r.id = reportId →
      { r with isActive := !r.isActive } ∈
        (toggleFlow writeFails persisted reports reportId currentStatus).2) := by
  refine ⟨rfl, rfl, ?_, ?_⟩
  · intro r hr hne
    refine List.mem_map.mpr ⟨r, hr, ?_⟩
    simp [hne]
  · intro r hr heq
    refine List.mem_map.mpr ⟨r, hr, ?_⟩
    simp [heq]

/-- C4 witness: a toggle call naming no record leaves every in-memory
record present unchanged. -/
theorem toggleFlow_spec_witness :
    reportA ∈ (toggleFlow false persisted0 [reportA] "zzz" true).2 :=
  (toggleFlow_spec false persisted0 [reportA] "zzz" true).2.2.1 reportA
    (by simp) (by decide)

/-- C1 (code bug): starting from six reports at page size 5, clicking
Next (landing on page 2 of the raw two pages) and then typing a search
that matches a single report leaves `gridCurrentPage = 2`, while the page
total over the filtered-and-sorted result sequence is 1 and the displayed
slice of the one-record result is empty — no clamping or reset occurs on
a filter change. -/
theorem gridPagination_violationC1 :
    (gridStep (gridStep gridState0 .pageNext) (.setSearch "alpha")).gridCurrentPage = 2 ∧
    gridProcessed dv0 (gridStep (gridStep gridState0 .pageNext) (.setSearch "alpha")) = [reportA] ∧
    filteredTotalPages dv0 (gridStep (gridStep gridState0 .pageNext) (.setSearch "alpha")) = 1 ∧
    displayedReports dv0 (gridStep (gridStep gridState0 .pageNext) (.setSearch "alpha")) = [] := by
  decide

/-- C10: an empty cell at the sort column converts to the number 0
(JS `Number('') === 0`), so against any cell that parses numerically the
comparison is the numeric one with the empty cell as 0, not the
string-comparison fallback. -/
theorem csvCompare_emptyNumeric (i : Nat) (d : SortDirection)
    (a b : List String) (q : Rat)
    (ha : cellAt a i = "") (hb : jsNumber (cellAt b i) = some q) :
    jsNumber (cellAt a i) = some 0 ∧
    csvCompare d i a b = (match d with | .asc => 0 - q | .desc => q - 0) := by
  have h0 : jsNumber "" = some 0 := rfl
  refine ⟨by rw [ha]; exact h0, ?_⟩
  simp only [csvCompare, ha, hb, h0]

/-- C10 witness: comparing an empty cell with the cell "5" ascending
yields the numeric difference 0 − 5. -/
theorem csvCompare_emptyNumeric_witness :
    jsNumber (cellAt [""] 0) = some 0 ∧
    csvCompare .asc 0 [""] ["5"] = 0 - 5 := by
  have h := csvCompare_emptyNumeric 0 .asc [""] ["5"] 5 rfl
    (by simp [cellAt, jsNumber, trimChars, parseUnsigned, decDigitsVal])
  exact ⟨h.1, h.2⟩

/-- C9: both sort-direction machines refine the spec machine — clicking
the active field/column steps neutral → ascending → descending → neutral
and clicking a different one starts ascending there (one active key at a
time, by construction of the state) — and three clicks on the same
control from the neutral state leave the grid view, respectively the CSV
rows, in the original unsorted order. -/
theorem sortToggle_spec :
    (∀ (s : SortState) (f : SortField),
      absGrid (handleSort s f) = specStep (absGrid s) f) ∧
    (∀ (c : CsvSortState) (i : Nat),
      absCsv (csvHeaderClick c i) = specStep (absCsv c) i) ∧
    (∀ (dv : String → Int) (l : List Report) (f : SortField),
      sortReports dv l (handleSort (handleSort (handleSort
        { field := none, direction := none } f) f) f) = l) ∧
    (∀ (csvFilter : String) (data : CsvData) (i : Nat),
      (getProcessedCsvData csvFilter
        (csvHeaderClick (csvHeaderClick (csvHeaderClick
          { field := none, direction := none } i) i) i) data).rows =
      (if csvFilter == "" then data.rows
       else data.rows.filter (rowMatchesFilter csvFilter))) := by
  refine ⟨?_, ?_, ?_, ?_⟩
  · rintro ⟨sf, sd⟩ f
    rcases sf with _ | sf
    · rcases sd with _ | sd
      · rfl
      · cases sd <;> rfl
    · by_cases h : sf = f
      · subst h
        rcases sd with _ | sd
        · simp [handleSort, absGrid, specStep]
        · cases sd <;> simp [handleSort, absGrid, specStep]
      · rcases sd with _ | sd
        · simp [handleSort, absGrid, specStep, h, Ne.symm h]
        · cases sd <;> simp [handleSort, absGrid, specStep, h, Ne.symm h]
  · rintro ⟨cf, cd⟩ i
    rcases cf with _ | j
    · rcases cd with _ | cd
      · rfl
      · cases cd <;> rfl
    · by_cases h : j = i
      · subst h
        rcases cd with _ | cd
        · simp [csvHeaderClick, absCsv, specStep]
        · cases cd <;> simp [csvHeaderClick, absCsv, specStep]
      · rcases cd with _ | cd
        · simp [csvHeaderClick, absCsv, specStep, h, Ne.symm h]
        · cases cd <;> simp [csvHeaderClick, absCsv, specStep, h, Ne.symm h]
  · intro dv l f
    simp [handleSort, sortReports]
  · intro csvFilter data i
    simp [csvHeaderClick, getProcessedCsvData]


/-- Comparing a list of characters with itself yields 0. -/
theorem listCmp_self : ∀ a : List Char, listCmp a a = 0
  | [] => rfl
  | c :: cs => by simp [listCmp, listCmp_self cs]

/-- Swapping the arguments of `listCmp` negates the result. -/
theorem listCmp_swap : ∀ a b : List Char, listCmp b a = -listCmp a b
  | [], [] => rfl
  | [], _ :: _ => rfl
  | _ :: _, [] => rfl
  | a :: as, b :: bs => by
    rcases lt_trichotomy a b with h | rfl | h
    · simp only [listCmp]
      rw [if_neg (lt_asymm h), if_pos h, if_pos h]
      norm_num
    · simp only [listCmp]
      rw [if_neg (lt_irrefl a), if_neg (lt_irrefl a), if_neg (lt_irrefl a),
        if_neg (lt_irrefl a)]
      exact listCmp_swap as bs
    · simp only [listCmp]
      rw [if_pos h, if_neg (lt_asymm h), if_pos h]

/-- The relation `listCmp · · ≤ 0` is transitive. -/
theorem listCmp_trans_nonpos :
    ∀ a b c : List Char, listCmp a b ≤ 0 → listCmp b c ≤ 0 → listCmp a c ≤ 0
  | [], _, c, _, _ => by cases c <;> norm_num [listCmp]
  | _ :: _, [], _, h1, _ => by norm_num [listCmp] at h1
  | _ :: _, _ :: _, [], _, h2 => by norm_num [listCmp] at h2
  | a :: as, b :: bs, c :: cs, h1, h2 => by
    simp only [listCmp] at h1 h2 ⊢
    rcases lt_trichotomy a b with hab | rfl | hab
    · rcases lt_trichotomy b c with hbc | rfl | hbc
      · rw [if_pos (lt_trans hab hbc)]; norm_num
      · rw [if_pos hab]; norm_num
      · rw [if_neg (lt_asymm hbc), if_pos hbc] at h2; norm_num at h2
    · rw [if_neg (lt_irrefl a), if_neg (lt_irrefl a)] at h1
      rcases lt_trichotomy a c with hac | rfl | hac
      · rw [if_pos hac]; norm_num
      · rw [if_neg (lt_irrefl a), if_neg (lt_irrefl a)] at h2 ⊢
        exact listCmp_trans_nonpos as bs cs h1 h2
      · rw [if_neg (lt_asymm hac), if_pos hac] at h2; norm_num at h2
    · rw [if_neg (lt_asymm hab), if_pos hab] at h1; norm_num at h1

/-- `listCmp` returns 0 exactly on equal lists. -/
theorem listCmp_eq_zero_iff : ∀ a b : List Char, listCmp a b = 0 ↔ a = b
  | [], [] => by simp [listCmp]
  | [], _ :: _ => by simp [listCmp]
  | _ :: _, [] => by simp [listCmp]
  | x :: xs, y :: ys => by
    simp only [listCmp]
    rcases lt_trichotomy x y with h | rfl | h
    · rw [if_pos h]; simp [ne_of_lt h]
    · rw [if_neg (lt_irrefl x), if_neg (lt_irrefl x)]
      simp [listCmp_eq_zero_iff xs ys]
    · rw [if_neg (lt_asymm h), if_pos h]; simp [ne_of_gt h]

/-- String comparison is transitive on the non-positive side. -/
theorem strCmp_trans_nonpos {a b c : String} (h1 : strCmp a b ≤ 0)
    (h2 : strCmp b c ≤ 0) : strCmp a c ≤ 0 :=
  listCmp_trans_nonpos a.data b.data c.data h1 h2

/-- String comparison is total. -/
theorem strCmp_total (a b : String) : strCmp a b ≤ 0 ∨ strCmp b a ≤ 0 := by
  have h := listCmp_swap a.data b.data
  simp only [strCmp]
  omega

/-- String comparison returns 0 exactly on equal strings. -/
theorem strCmp_eq_zero_iff (a b : String) : strCmp a b = 0 ↔ a = b := by
  rw [strCmp, listCmp_eq_zero_iff]
  constructor
  · intro h
    cases a; cases b; exact congrArg String.mk h
  · intro h
    exact congrArg String.data h

/-- The comparator-induced order of `sortReports` is transitive. -/
theorem reportLe_trans (dv : String → Int) (f : SortField) (d : SortDirection)
    (a b c : Report) (h1 : reportCompare dv f d a b ≤ 0)
    (h2 : reportCompare dv f d b c ≤ 0) : reportCompare dv f d a c ≤ 0 := by
  cases f <;> cases d <;> simp only [reportCompare] at h1 h2 ⊢
  · exact strCmp_trans_nonpos h1 h2
  · exact strCmp_trans_nonpos h2 h1
  · omega
  · omega
  · omega
  · omega

/-- The comparator-induced order of `sortReports` is total. -/
theorem reportLe_total (dv : String → Int) (f : SortField) (d : SortDirection)
    (a b : Report) :
    reportCompare dv f d a b ≤ 0 ∨ reportCompare dv f d b a ≤ 0 := by
  cases f <;> cases d <;> simp only [reportCompare]
  · exact strCmp_total _ _
  · exact strCmp_total _ _
  · omega
  · omega
  · omega
  · omega

/-- C6: `sortReports` is the identity whenever the sort field or the sort
direction is unset; otherwise it returns a permutation of the input that
is sorted by the field's comparator (name: lexicographic; date: timestamp
value; status: inactive 0 before active 1 ascending, reversed descending)
and is stable: a pair of records the comparator ties stays in its input
order. -/
theorem sortReports_spec (dv : String → Int) (l : List Report) :
    (∀ d, sortReports dv l { field := none, direction := d } = l) ∧
    (∀ f, sortReports dv l { field := f, direction := none } = l) ∧
    ∀ (f : SortField) (d : SortDirection),
      (sortReports dv l { field := some f, direction := some d }).Perm l ∧
      (sortReports dv l { field := some f, direction := some d }).Pairwise
        (fun a b => reportCompare dv f d a b ≤ 0) ∧
      ∀ a b : Report, reportCompare dv f d a b = 0 →
        List.Sublist [a, b] l →
        List.Sublist [a, b]
          (sortReports dv l { field := some f, direction := some d }) := by
  refine ⟨fun d => rfl, fun f => ?_, fun f d => ?_⟩
  · cases f <;> rfl
  · have trans : ∀ x y z : Report,
        (fun a b => decide (reportCompare dv f d a b ≤ 0)) x y →
        (fun a b => decide (reportCompare dv f d a b ≤ 0)) y z →
        (fun a b => decide (reportCompare dv f d a b ≤ 0)) x z := by
      intro x y z h1 h2
      simp only [decide_eq_true_eq] at h1 h2 ⊢
      exact reportLe_trans dv f d x y z h1 h2
    have total : ∀ x y : Report,
        ((fun a b => decide (reportCompare dv f d a b ≤ 0)) x y ||
          (fun a b => decide (reportCompare dv f d a b ≤ 0)) y x) := by
      intro x y
      simp only [Bool.or_eq_true, decide_eq_true_eq]
      exact reportLe_total dv f d x y
    refine ⟨List.mergeSort_perm l _, ?_, ?_⟩
    · have h := List.sorted_mergeSort trans total l
      exact List.Pairwise.imp (fun h' => by simpa using h') h
    · intro a b hab hsub
      exact List.pair_sublist_mergeSort trans total (by simp [hab]) hsub

/-- C6 witness: with the constant timestamp function every date
comparison ties, so the stability clause keeps the two sample records in
input order. -/
theorem sortReports_spec_witness :
    List.Sublist [reportA, reportB]
      (sortReports dv0 [reportA, reportB]
        { field := some .date, direction := some .asc }) :=
  ((sortReports_spec dv0 [reportA, reportB]).2.2 .date .asc).2.2 reportA reportB
    (by decide) (List.Sublist.refl _)


/-- Unfolding `groupPairs` over a snoc. -/
theorem groupPairs_append (l : List Report) (r : Report) :
    groupPairs (l ++ [r]) = insertGrouped (groupPairs l) (dateKey r) r := by
  simp [groupPairs, List.foldl_append]

/-- Unfolding `firstKeys` over a snoc. -/
theorem firstKeys_append (l : List Report) (r : Report) :
    firstKeys (l ++ [r]) =
      if dateKey r ∈ firstKeys l then firstKeys l
      else firstKeys l ++ [dateKey r] := by
  simp [firstKeys, List.foldl_append]

/-- The first-occurrence key list has no duplicates. -/
theorem firstKeys_nodup (l : List Report) : (firstKeys l).Nodup := by
  induction l using List.reverseRecOn with
  | nil => simp [firstKeys]
  | append_singleton l r ih =>
    rw [firstKeys_append]
    by_cases h : dateKey r ∈ firstKeys l
    · rwa [if_pos h]
    · rw [if_neg h]
      simp [List.nodup_append, ih, h]

/-- Every record's date key occurs among the first-occurrence keys. -/
theorem mem_firstKeys_of_mem {l : List Report} {r : Report} (hr : r ∈ l) :
    dateKey r ∈ firstKeys l := by
  induction l using List.reverseRecOn with
  | nil => simp at hr
  | append_singleton l x ih =>
    by_cases hmem : dateKey x ∈ firstKeys l
    · rw [firstKeys_append, if_pos hmem]
      rcases List.mem_append.mp hr with h | h
      · exact ih h
      · simp only [List.mem_singleton] at h
        subst h
        exact hmem
    · rw [firstKeys_append, if_neg hmem]
      rcases List.mem_append.mp hr with h | h
      · exact List.mem_append_left _ (ih h)
      · simp only [List.mem_singleton] at h
        subst h
        simp

/-- A key outside `firstKeys` selects no record. -/
theorem filter_dateKey_eq_nil {l : List Report} {k : String}
    (h : k ∉ firstKeys l) :
    l.filter (fun r => decide (dateKey r = k)) = [] := by
  rw [List.filter_eq_nil_iff]
  intro r hr
  simp only [decide_eq_true_eq]
  intro heq
  exact h (heq ▸ mem_firstKeys_of_mem hr)

/-- Inserting a fresh key appends a new singleton group at the end. -/
theorem insertGrouped_not_mem (ks : List String) (f : String → List Report)
    (key : String) (r : Report) (h : key ∉ ks) :
    insertGrouped (ks.map fun k => (k, f k)) key r =
      (ks.map fun k => (k, f k)) ++ [(key, [r])] := by
  induction ks with
  | nil => rfl
  | cons k0 ks ih =>
    simp only [List.map_cons, insertGrouped, List.cons_append]
    rw [if_neg (show ¬k0 = key from fun he => h (by rw [← he]; exact List.mem_cons_self _ _))]
    rw [ih (fun hk => h (List.mem_cons_of_mem _ hk))]

/-- Inserting an existing key appends the record to that key's group. -/
theorem insertGrouped_mem (ks : List String) (f : String → List Report)
    (key : String) (r : Report) (hnd : ks.Nodup) (h : key ∈ ks) :
    insertGrouped (ks.map fun k => (k, f k)) key r =
      ks.map fun k => (k, if k = key then f k ++ [r] else f k) := by
  induction ks with
  | nil => simp at h
  | cons k0 ks ih =>
    simp only [List.map_cons, insertGrouped]
    by_cases hk : k0 = key
    · rw [if_pos hk]
      subst hk
      have hnot : k0 ∉ ks := (List.nodup_cons.mp hnd).1
      rw [if_pos rfl]
      refine congrArg (_ :: ·) ?_
      refine (List.map_congr_left fun k hk' => ?_).symm
      rw [if_neg (show ¬k = k0 from fun he => hnot (he ▸ hk'))]
    · rw [if_neg hk]
      have h' : key ∈ ks := by
        rcases List.mem_cons.mp h with h0 | h0
        · exact absurd h0.symm hk
        · exact h0
      rw [ih (List.nodup_cons.mp hnd).2 h', if_neg hk]

/-- The `reduce` accumulator of the grouping stage is exactly: one group
per first-occurrence key, holding the input's records with that key in
input order. -/
theorem groupPairs_eq (l : List Report) :
    groupPairs l =
      (firstKeys l).map fun k => (k, l.filter fun r => decide (dateKey r = k)) := by
  induction l using List.reverseRecOn with
  | nil => rfl
  | append_singleton l r ih =>
    rw [groupPairs_append, ih]
    by_cases hmem : dateKey r ∈ firstKeys l
    · rw [insertGrouped_mem _ _ _ _ (firstKeys_nodup l) hmem,
        firstKeys_append, if_pos hmem]
      refine List.map_congr_left fun k hk => ?_
      refine congrArg (k, ·) ?_
      by_cases hkey : k = dateKey r
      · subst hkey
        rw [if_pos rfl, List.filter_append]
        simp
      · rw [if_neg hkey, List.filter_append]
        have hnil : List.filter (fun x => decide (dateKey x = k)) [r] = [] := by
          simp only [List.filter_cons, List.filter_nil, decide_eq_true_eq]
          rw [if_neg (fun he => hkey he.symm)]
        rw [hnil, List.append_nil]
    · rw [insertGrouped_not_mem _ _ _ _ hmem, firstKeys_append, if_neg hmem,
        List.map_append]
      refine congrArg₂ (· ++ ·) ?_ ?_
      · refine List.map_congr_left fun k hk => ?_
        refine congrArg (k, ·) ?_
        have hkey : dateKey r ≠ k := fun he => hmem (he ▸ hk)
        rw [List.filter_append]
        have hnil : List.filter (fun x => decide (dateKey x = k)) [r] = [] := by
          simp only [List.filter_cons, List.filter_nil, decide_eq_true_eq]
          rw [if_neg hkey]
        rw [hnil, List.append_nil]
      · simp only [List.map_cons, List.map_nil, List.filter_append]
        rw [filter_dateKey_eq_nil hmem]
        simp

/-- C7: `groupByDateKey` partitions its input by date key — each listed
group holds exactly the input records with its key, in input order; keys
are pairwise distinct; every input record lands in the group of its own
key — and the groups are ordered by key descending under lexicographic
string comparison. -/
theorem groupByDate_spec (l : List Report) :
    (∀ k rs, (k, rs) ∈ groupByDateKey l →
      rs = l.filter fun r => decide (dateKey r = k)) ∧
    ((groupByDateKey l).map Prod.fst).Nodup ∧
    (groupByDateKey l).Pairwise (fun a b => strCmp b.1 a.1 < 0) ∧
    ∀ r ∈ l, ∃ rs, (dateKey r, rs) ∈ groupByDateKey l ∧ r ∈ rs := by
  have trans : ∀ x y z : String × List Report,
      (fun a b => decide (strCmp b.1 a.1 ≤ 0)) x y →
      (fun a b => decide (strCmp b.1 a.1 ≤ 0)) y z →
      (fun a b => decide (strCmp b.1 a.1 ≤ 0)) x z := by
    intro x y z h1 h2
    simp only [decide_eq_true_eq] at h1 h2 ⊢
    exact strCmp_trans_nonpos h2 h1
  have total : ∀ x y : String × List Report,
      ((fun a b => decide (strCmp b.1 a.1 ≤ 0)) x y ||
        (fun a b => decide (strCmp b.1 a.1 ≤ 0)) y x) := by
    intro x y
    simp only [Bool.or_eq_true, decide_eq_true_eq]
    exact strCmp_total y.1 x.1
  have hperm : (groupByDateKey l).Perm (groupPairs l) := List.mergeSort_perm _ _
  have hkeys : (groupPairs l).map Prod.fst = firstKeys l := by
    rw [groupPairs_eq, List.map_map]
    exact List.map_id _
  have hnd : ((groupByDateKey l).map Prod.fst).Nodup := by
    have hp : ((groupByDateKey l).map Prod.fst).Perm ((groupPairs l).map Prod.fst) :=
      hperm.map _
    rw [hkeys] at hp
    exact hp.nodup_iff.mpr (firstKeys_nodup l)
  refine ⟨?_, hnd, ?_, ?_⟩
  · intro k rs hk
    have hkp : (k, rs) ∈ groupPairs l := hperm.mem_iff.mp hk
    rw [groupPairs_eq] at hkp
    rcases List.mem_map.mp hkp with ⟨k', _, heq⟩
    cases heq
    rfl
  · have hsorted := List.sorted_mergeSort trans total (groupPairs l)
    have hne : (groupByDateKey l).Pairwise (fun a b => a.1 ≠ b.1) :=
      List.pairwise_map.mp hnd
    have hand := hsorted.and hne
    refine hand.imp fun {a b} h => ?_
    have h1 : strCmp b.1 a.1 ≤ 0 := by simpa using h.1
    have h2 : strCmp b.1 a.1 ≠ 0 := fun h0 =>
      h.2 (((strCmp_eq_zero_iff _ _).mp h0).symm)
    omega
  · intro r hr
    have hk : dateKey r ∈ firstKeys l := mem_firstKeys_of_mem hr
    have hmem : (dateKey r, l.filter fun x => decide (dateKey x = dateKey r)) ∈
        groupPairs l := by
      rw [groupPairs_eq]
      exact List.mem_map.mpr ⟨dateKey r, hk, rfl⟩
    refine ⟨_, hperm.mem_iff.mpr hmem, ?_⟩
    simp [List.mem_filter, hr]

/-- C7 witness: the single sample record lands in the group of its own
date key. -/
theorem groupByDate_spec_witness :
    ∃ rs, (dateKey reportA, rs) ∈ groupByDateKey [reportA] ∧ reportA ∈ rs :=
  (groupByDate_spec [reportA]).2.2.2 reportA (by simp)


/-- C8: in the CSV detail-view reprocessing a row survives iff the filter
text is empty or some cell of the row contains it case-insensitively; the
pairwise comparator attempts a numeric conversion of the two cells at the
sort column and compares numerically exactly when both convert, falling
back to string comparison otherwise — decided per compared pair — and
with a sort column and direction set the rows are the stable sort of the
filtered rows under that comparator. -/
theorem getProcessedCsvData_spec (csvFilter : String) (s : CsvSortState)
    (data : CsvData) :
    (∀ row, row ∈ (getProcessedCsvData csvFilter s data).rows ↔
      row ∈ data.rows ∧ (csvFilter = "" ∨ rowMatchesFilter csvFilter row)) ∧
    (∀ (i : Nat) (d : SortDirection) (a b : List String) (numA numB : Rat),
      jsNumber (cellAt a i) = some numA → jsNumber (cellAt b i) = some numB →
      csvCompare d i a b =
        (match d with | .asc => numA - numB | .desc => numB - numA)) ∧
    (∀ (i : Nat) (d : SortDirection) (a b : List String),
      jsNumber (cellAt a i) = none ∨ jsNumber (cellAt b i) = none →
      csvCompare d i a b =
        (match d with
          | .asc => ((strCmp (cellAt a i) (cellAt b i) : Int) : Rat)
          | .desc => ((strCmp (cellAt b i) (cellAt a i) : Int) : Rat))) ∧
    (∀ (i : Nat) (d : SortDirection),
      s = { field := some i, direction := some d } →
      (getProcessedCsvData csvFilter s data).rows =
        (if csvFilter == "" then data.rows
          else data.rows.filter (rowMatchesFilter csvFilter)).mergeSort
          (fun a b => decide (csvCompare d i a b ≤ 0))) := by
  refine ⟨?_, ?_, ?_, ?_⟩
  · intro row
    rcases s with ⟨sf, sd⟩
    by_cases hf : csvFilter = ""
    · subst hf
      rcases sf with _ | i <;> rcases sd with _ | d <;>
        simp [getProcessedCsvData, List.mem_mergeSort]
    · rcases sf with _ | i <;> rcases sd with _ | d <;>
        simp [getProcessedCsvData, List.mem_mergeSort, List.mem_filter, hf]
  · intro i d a b numA numB h1 h2
    simp only [csvCompare, h1, h2]
  · intro i d a b h
    rcases h with h | h
    · simp only [csvCompare, h]
    · rcases hA : jsNumber (cellAt a i) with _ | qa
      · simp only [csvCompare, hA]
      · simp only [csvCompare, hA, h]
  · intro i d hs
    subst hs
    rfl

/-- C8 witness: over the spec's worked example the row `["abc","1"]`
survives the filter "ab", and the cells "2" and "10" of two rows compare
numerically (2 − 10, not the lexicographic order that would put "10"
first). -/
theorem getProcessedCsvData_spec_witness :
    (["abc", "1"] ∈ (getProcessedCsvData "ab"
      { field := none, direction := none } csvSample).rows) ∧
    csvCompare .asc 0 ["2"] ["10"] = 2 - 10 := by
  refine ⟨?_, ?_⟩
  · exact ((getProcessedCsvData_spec "ab" { field := none, direction := none }
      csvSample).1 _).mpr ⟨by decide, Or.inr (by decide)⟩
  · exact (getProcessedCsvData_spec "ab" { field := none, direction := none }
      csvSample).2.1 0 .asc _ _ 2 10
      (by simp [cellAt, jsNumber, trimChars, parseUnsigned, decDigitsVal])
      (by simp [cellAt, jsNumber, trimChars, parseUnsigned, decDigitsVal])

end ReportDashboard
